import Mathlib

/-!
Shallow embedding of the go8 author/book CRUD service:
ent schema edges, the author repository (create, list with count,
get-by-id, update, soft-delete), the book use-case over its repository
interface, and the decode/validate/status-code logic of the HTTP handlers.
Times are modelled as `Nat`; SQL NULL as `Option`.
-/

namespace Go8

/-- One ent edge declaration: `edge.To`/`edge.From`, its name, target
entity, optional back-reference name, and whether `.Unique()` was set. -/
structure EdgeDef where
  name : String
  target : String
  isTo : Bool
  ref : Option String
  unique : Bool
deriving Repr, DecidableEq

/-- Book.Edges from src/ent/schema/book.go: `edge.To("authors", Author.Type)`,
with no `.Unique()`. -/
def bookAuthorsEdge : EdgeDef :=
  { name := "authors", target := "Author", isTo := true, ref := none, unique := false }

/-- Author.Edges: `edge.From("books", Book.Type).Ref("authors")`,
with no `.Unique()`. -/
def authorBooksEdge : EdgeDef :=
  { name := "books", target := "Book", isTo := false, ref := some "authors", unique := false }

def bookEdgesDef : List EdgeDef := [bookAuthorsEdge]

def authorEdgesDef : List EdgeDef := [authorBooksEdge]

/-- A row of the join table backing the book–author edge. -/
structure Link where
  bookId : Nat
  authorId : Nat
deriving Repr, DecidableEq

def countLinksOfBook (links : List Link) (b : Nat) : Nat :=
  (links.filter (fun l => l.bookId == b)).length

def countLinksOfAuthor (links : List Link) (a : Nat) : Nat :=
  (links.filter (fun l => l.authorId == a)).length

/-- ent semantics of an edge pair: a `.Unique()` on the To side caps each
book at one author link, a `.Unique()` on the From side caps each author at
one book link; links must connect known rows.  Without `.Unique()` no
cardinality constraint is imposed. -/
def edgePairSatisfied (toEdge fromEdge : EdgeDef) (links : List Link)
    (bookIds authorIds : List Nat) : Bool :=
  (!toEdge.unique || bookIds.all (fun b => countLinksOfBook links b ≤ 1)) &&
  (!fromEdge.unique || authorIds.all (fun a => countLinksOfAuthor links a ≤ 1)) &&
  links.all (fun l => bookIds.contains l.bookId && authorIds.contains l.authorId)

/-- Instances admitted by the declared book/author schema edges. -/
def schemaSatisfied (links : List Link) (bookIds authorIds : List Nat) : Bool :=
  edgePairSatisfied bookAuthorsEdge authorBooksEdge links bookIds authorIds

/-- Column values of `gen.Author` (Author.Fields in the ent schema): id,
first/middle/last name, and the three optional timestamps; `deleted_at`
is Nillable, i.e. SQL NULL is observable. -/
structure AuthorRow where
  id : Nat
  firstName : String
  middleName : String
  lastName : String
  createdAt : Option Nat
  updatedAt : Option Nat
  deletedAt : Option Nat
deriving Repr, DecidableEq

/-- Column values of `gen.Book` (Book.Fields in the ent schema). -/
structure BookRow where
  id : Nat
  title : String
  publishedDate : Nat
  imageURL : String
  description : String
  createdAt : Option Nat
  updatedAt : Option Nat
  deletedAt : Option Nat
deriving Repr, DecidableEq

/-- The relational store: author rows, book rows, the edge join table and
the id sequences. -/
structure Store where
  authors : List AuthorRow
  books : List BookRow
  links : List Link
  nextAuthorId : Nat
  nextBookId : Nat
deriving Repr, DecidableEq

/-- Embedding of `book.Schema` as populated by the repository mappings
(ID, Title, PublishedDate, ImageURL, Description, CreatedAt, UpdatedAt). -/
structure BookSchema where
  id : Nat
  title : String
  publishedDate : Nat
  imageURL : String
  description : String
  createdAt : Option Nat
  updatedAt : Option Nat
deriving Repr, DecidableEq

/-- Embedding of `author.Schema` as populated by the repository mappings. -/
structure AuthorSchema where
  id : Nat
  firstName : String
  middleName : String
  lastName : String
  createdAt : Option Nat
  updatedAt : Option Nat
  deletedAt : Option Nat
  books : List BookSchema
deriving Repr, DecidableEq

/-- Embedding of `author.Filter`: the name filters plus the base limit/offset/sort used
by `repository.List` (sort is a key–direction map, modelled as a list of
pairs since the claim is per-entry). -/
structure AuthorFilter where
  firstName : String
  middleName : String
  lastName : String
  limit : Nat
  offset : Nat
  sort : List (String × String)
deriving Repr, DecidableEq

/-- The ent predicates the author repository uses. -/
inductive AuthorPred where
  | firstNameContainsFold (s : String)
  | middleNameContainsFold (s : String)
  | lastNameContainsFold (s : String)
  | idEq (id : Nat)
  | deletedAtIsNil
deriving Repr, DecidableEq

/-- Tests whether `needle` occurs as a contiguous substring of `hay`. -/
def charListContains (hay needle : List Char) : Bool :=
  match hay, needle with
  | _, [] => true
  | [], _ :: _ => false
  | h :: t, n => List.isPrefixOf n (h :: t) || charListContains t n

/-- SQL `ContainsFold`: case-insensitive substring match (case folding
applied character-wise). -/
def containsFold (hay sub : String) : Bool :=
  charListContains (hay.data.map Char.toLower) (sub.data.map Char.toLower)

def evalAuthorPred : AuthorPred → AuthorRow → Bool
  | .firstNameContainsFold s, a => containsFold a.firstName s
  | .middleNameContainsFold s, a => containsFold a.middleName s
  | .lastNameContainsFold s, a => containsFold a.lastName s
  | .idEq i, a => a.id == i
  | .deletedAtIsNil, a => a.deletedAt.isNone

inductive Dir where
  | asc
  | desc
deriving Repr, DecidableEq

/-- One `entAuthor.OrderOption` as produced by `authorOrder`. -/
structure OrderOption where
  col : String
  dir : Dir
deriving Repr, DecidableEq

/-- The loop body of `authorOrder`: switch on the column name, append asc
for "ASC" and desc otherwise; unknown columns append nothing. -/
def authorOrderStep (orderFunc : List OrderOption) (p : String × String) :
    List OrderOption :=
  match p.1 with
  | "first_name" => orderFunc ++ [⟨"first_name", if p.2 = "ASC" then Dir.asc else Dir.desc⟩]
  | "last_name" => orderFunc ++ [⟨"last_name", if p.2 = "ASC" then Dir.asc else Dir.desc⟩]
  | "created_at" => orderFunc ++ [⟨"created_at", if p.2 = "ASC" then Dir.asc else Dir.desc⟩]
  | "updated_at" => orderFunc ++ [⟨"updated_at", if p.2 = "ASC" then Dir.asc else Dir.desc⟩]
  | _ => orderFunc

/-- Definition `authorOrder` from the author repository: fold the loop body over the
sort map entries. -/
def authorOrder (sorts : List (String × String)) : List OrderOption :=
  sorts.foldl authorOrderStep []

/-- An ent author query as assembled by the repository: predicates,
limit/offset, order options and whether `WithBooks()` was requested. -/
structure AuthorQuery where
  preds : List AuthorPred
  limit : Option Nat
  offset : Nat
  orders : List OrderOption
  withBooks : Bool
deriving Repr, DecidableEq

/-- The count query of `repository.List`: only `DeletedAtIsNil`. -/
def listCountQuery : AuthorQuery :=
  { preds := [AuthorPred.deletedAtIsNil], limit := none, offset := 0,
    orders := [], withBooks := false }

/-- The name predicates of `repository.List`: each added exactly when the
corresponding filter field is non-empty, in source order. -/
def namePredicates (f : AuthorFilter) : List AuthorPred :=
  (if f.firstName ≠ "" then [AuthorPred.firstNameContainsFold f.firstName] else []) ++
  (if f.middleName ≠ "" then [AuthorPred.middleNameContainsFold f.middleName] else []) ++
  (if f.lastName ≠ "" then [AuthorPred.lastNameContainsFold f.lastName] else [])

/-- The data query of `repository.List`: `WithBooks`, name predicates,
`DeletedAtIsNil`, the limit and offset of the filter, and `authorOrder`. -/
def listDataQuery (f : AuthorFilter) : AuthorQuery :=
  { preds := namePredicates f ++ [AuthorPred.deletedAtIsNil],
    limit := some f.limit, offset := f.offset,
    orders := authorOrder f.sort, withBooks := true }

def cmpOptNat : Option Nat → Option Nat → Ordering
  | none, none => .eq
  | none, some _ => .lt
  | some _, none => .gt
  | some a, some b => compare a b

def cmpField (col : String) (a b : AuthorRow) : Ordering :=
  match col with
  | "first_name" => compare a.firstName b.firstName
  | "last_name" => compare a.lastName b.lastName
  | "created_at" => cmpOptNat a.createdAt b.createdAt
  | "updated_at" => cmpOptNat a.updatedAt b.updatedAt
  | _ => .eq

def cmpOrders : List OrderOption → AuthorRow → AuthorRow → Ordering
  | [], _, _ => .eq
  | o :: rest, a, b =>
    match (match o.dir with | .asc => cmpField o.col a b | .desc => (cmpField o.col a b).swap) with
    | .eq => cmpOrders rest a b
    | .lt => .lt
    | .gt => .gt

def rowLE (orders : List OrderOption) (a b : AuthorRow) : Bool :=
  match cmpOrders orders a b with
  | .gt => false
  | _ => true

def insertLE (le : AuthorRow → AuthorRow → Bool) (a : AuthorRow) :
    List AuthorRow → List AuthorRow
  | [] => [a]
  | b :: t => if le a b then a :: b :: t else b :: insertLE le a t

def sortLE (le : AuthorRow → AuthorRow → Bool) : List AuthorRow → List AuthorRow
  | [] => []
  | a :: t => insertLE le a (sortLE le t)

/-- SQL evaluation of an author query against the store: WHERE (all
predicates), ORDER BY, OFFSET, LIMIT. -/
def runAuthorQuery (st : Store) (q : AuthorQuery) : List AuthorRow :=
  let rows := st.authors.filter (fun a => q.preds.all (fun p => evalAuthorPred p a))
  let rows := sortLE (rowLE q.orders) rows
  let rows := rows.drop q.offset
  match q.limit with
  | none => rows
  | some n => rows.take n

/-- SQL evaluation of a `Count` query: rows matching all predicates. -/
def countAuthorQuery (st : Store) (q : AuthorQuery) : Nat :=
  (st.authors.filter (fun a => q.preds.all (fun p => evalAuthorPred p a))).length

/-- Books linked to an author through the join table. -/
def loadBooks (st : Store) (authorId : Nat) : List BookRow :=
  (st.links.filter (fun l => l.authorId == authorId)).filterMap
    (fun l => st.books.find? (fun b => b.id == l.bookId))

structure GenAuthorEdges where
  books : List BookRow
deriving Repr, DecidableEq

/-- A `gen.Author` struct as returned by the generated ORM: the row plus
its (possibly unloaded) edges. -/
structure GenAuthor where
  row : AuthorRow
  edges : GenAuthorEdges
deriving Repr, DecidableEq

/-- Query results as `gen.Author` structs: edges are populated only when
`WithBooks()` was on the query. -/
def runAuthorQueryGen (st : Store) (q : AuthorQuery) : List GenAuthor :=
  (runAuthorQuery st q).map
    (fun a => ⟨a, ⟨if q.withBooks then loadBooks st a.id else []⟩⟩)

inductive RepoError where
  | notFound
  | nilRequest
deriving Repr, DecidableEq

/-- The book schema mapping used by every author repository method. -/
def bookToSchema (b : BookRow) : BookSchema :=
  { id := b.id, title := b.title, publishedDate := b.publishedDate,
    imageURL := b.imageURL, description := b.description,
    createdAt := b.createdAt, updatedAt := b.updatedAt }

/-- The author schema mapping of List/Read/Update: author columns plus the
books of the possibly unloaded edge of the struct. -/
def mapGenAuthor (g : GenAuthor) : AuthorSchema :=
  { id := g.row.id, firstName := g.row.firstName, middleName := g.row.middleName,
    lastName := g.row.lastName, createdAt := g.row.createdAt,
    updatedAt := g.row.updatedAt, deletedAt := g.row.deletedAt,
    books := g.edges.books.map bookToSchema }

/-- entgo generated `UpdateOneID(id)...Save`: mutate the row with that id,
fail with not-found when no such row exists, and return the mutated row with
no edges loaded. -/
def entUpdateAuthor (st : Store) (id : Nat) (upd : AuthorRow → AuthorRow) :
    Except RepoError (Store × GenAuthor) :=
  match st.authors.find? (fun a => a.id == id) with
  | none => .error .notFound
  | some a =>
    .ok ({ st with authors := st.authors.map (fun b => if b.id == id then upd b else b) },
         ⟨upd a, ⟨[]⟩⟩)

/-- entgo generated `Author.Get(id)`: lookup by id with no soft-delete
filter and no edge loading. -/
def entAuthorGet (st : Store) (id : Nat) : Except RepoError AuthorRow :=
  match st.authors.find? (fun a => a.id == id) with
  | some a => .ok a
  | none => .error .notFound

/-- entgo generated `Book.Create()...Save`: insert the row (`image_url`
stays at its zero value since the repository never sets it; `created_at`
and `updated_at` are filled database-side), and return the struct as ent
sees it, i.e. without the database-side timestamps. -/
def entCreateBook (parse : String → Nat) (now : Nat) (st : Store)
    (title publishedDate description : String) : Store × BookRow :=
  let retRow : BookRow :=
    { id := st.nextBookId, title := title, publishedDate := parse publishedDate,
      imageURL := "", description := description,
      createdAt := none, updatedAt := none, deletedAt := none }
  ({ st with
      books := st.books ++ [{ retRow with createdAt := some now, updatedAt := some now }],
      nextBookId := st.nextBookId + 1 },
   retRow)

/-- Embedding of `book.CreateRequest` (src/unnamed/part_000). -/
structure BookCreateRequest where
  title : String
  publishedDate : String
  imageURL : String
  description : String
deriving Repr, DecidableEq

/-- Embedding of `book.UpdateRequest` (src/unnamed/part_000). -/
structure BookUpdateRequest where
  id : Nat
  title : String
  publishedDate : String
  imageURL : String
  description : String
deriving Repr, DecidableEq

/-- Embedding of `author.CreateRequest` as used by the author repository Create:
names plus nested book create requests. -/
structure AuthorCreateRequest where
  firstName : String
  middleName : String
  lastName : String
  books : List BookCreateRequest
deriving Repr, DecidableEq

/-- Embedding of `author.UpdateRequest` as used by the author repository Update. -/
structure AuthorUpdateRequest where
  id : Nat
  firstName : String
  middleName : String
  lastName : String
deriving Repr, DecidableEq

/-- entgo `Book.CreateBulk(bulk...).Save`: insert each request in order,
returning the created structs in order. -/
def entCreateBooksBulk (parse : String → Nat) (now : Nat) (st : Store) :
    List BookCreateRequest → Store × List BookRow
  | [] => (st, [])
  | b :: rest =>
    let p := entCreateBook parse now st b.title b.publishedDate b.description
    let q := entCreateBooksBulk parse now p.1 rest
    (q.1, p.2 :: q.2)

/-- entgo `Author.Create().SetFirstName...AddBooks(books...).Save`:
insert the author row (timestamps database-side), add one join row per
book, and return the struct as ent sees it, without the database-side
timestamps. -/
def entCreateAuthor (now : Nat) (st : Store) (fn mn ln : String)
    (bookIds : List Nat) : Store × AuthorRow :=
  let id := st.nextAuthorId
  let dbRow : AuthorRow :=
    { id := id, firstName := fn, middleName := mn, lastName := ln,
      createdAt := some now, updatedAt := some now, deletedAt := none }
  ({ st with
      authors := st.authors ++ [dbRow],
      links := st.links ++ bookIds.map (fun b => ⟨b, id⟩),
      nextAuthorId := st.nextAuthorId + 1 },
   { dbRow with createdAt := none, updatedAt := none })

/-- Method `repository.Create` of the author repository: nil check, bulk-create
the nested books, create the author with those books attached, re-fetch the
author by the created ID (created_at/updated_at are database-side, so the
struct returned by Save lacks them), then build the response from the
re-fetched author and the bulk-created book structs. -/
def repoCreate (parse : String → Nat) (now : Nat) (st : Store)
    (request : Option AuthorCreateRequest) :
    Except RepoError (Store × AuthorSchema) :=
  match request with
  | none => .error .nilRequest
  | some req =>
    let pb := entCreateBooksBulk parse now st req.books
    let pa := entCreateAuthor now pb.1 req.firstName req.middleName req.lastName
      (pb.2.map (fun b => b.id))
    match entAuthorGet pa.1 pa.2.id with
    | .error _ => .error .notFound
    | .ok created =>
      .ok (pa.1,
        { id := created.id, firstName := created.firstName,
          middleName := created.middleName, lastName := created.lastName,
          createdAt := created.createdAt, updatedAt := created.updatedAt,
          deletedAt := created.deletedAt,
          books := pb.2.map bookToSchema })

/-- The List result: mapped rows plus the separately counted total. -/
structure ListResult where
  data : List AuthorSchema
  total : Nat
deriving Repr, DecidableEq

/-- Method `repository.List`: count all non-deleted authors (no name predicates),
then run the filtered/sorted/paginated data query with books loaded, and
map each struct to `author.Schema`. -/
def repoList (st : Store) (f : AuthorFilter) : ListResult :=
  { data := (runAuthorQueryGen st (listDataQuery f)).map mapGenAuthor,
    total := countAuthorQuery st listCountQuery }

/-- The query of `repository.Read`: by id, `DeletedAtIsNil`, books loaded. -/
def readQuery (id : Nat) : AuthorQuery :=
  { preds := [AuthorPred.idEq id, AuthorPred.deletedAtIsNil],
    limit := none, offset := 0, orders := [], withBooks := true }

/-- Method `repository.Read`: query by id and `DeletedAtIsNil` with books loaded,
take the first row, and map it. -/
def repoRead (st : Store) (id : Nat) : Except RepoError AuthorSchema :=
  match (runAuthorQueryGen st (readQuery id)).head? with
  | some g => .ok (mapGenAuthor g)
  | none => .error .notFound

/-- Method `repository.Update`: `UpdateOneID` setting the three names, then map
the returned struct — whose book edge was never loaded — to the schema. -/
def repoUpdate (st : Store) (a : AuthorUpdateRequest) :
    Except RepoError (Store × AuthorSchema) :=
  match entUpdateAuthor st a.id (fun r =>
      { r with firstName := a.firstName, middleName := a.middleName,
               lastName := a.lastName }) with
  | .error e => .error e
  | .ok p => .ok (p.1, mapGenAuthor p.2)

/-- Method `repository.Delete`: `UpdateOneID(authorID).SetDeletedAt(time.Now()).Save`,
an update that only sets `deleted_at`; the row is not removed. -/
def repoDelete (now : Nat) (st : Store) (authorID : Nat) :
    Except RepoError Store :=
  match entUpdateAuthor st authorID (fun r => { r with deletedAt := some now }) with
  | .error e => .error e
  | .ok p => .ok p.1

/-- Errors surfaced by a use case to a handler: `sql.ErrNoRows` or any
other error (carrying its message). -/
inductive UCErr where
  | noRows
  | other (msg : String)
deriving Repr, DecidableEq

/-- Embedding of the `book.Filter` base used by the book use case/handler. -/
structure BookFilter where
  title : String
  description : String
  search : Bool
  limit : Nat
  offset : Nat
deriving Repr, DecidableEq

/-- The `repository.Book` interface the book use case is built over. -/
structure BookRepo where
  create : BookCreateRequest → Except UCErr Nat
  read : Nat → Except UCErr BookSchema
  update : BookUpdateRequest → Except UCErr Unit
  delete : Nat → Except UCErr Unit
  list : BookFilter → Except UCErr (List BookSchema)
  search : BookFilter → Except UCErr (List BookSchema)

/-- Method `BookUseCase.Create` (src/unnamed/part_000): repository Create, then
on success repository Read with the returned ID; the read result is what
is returned. -/
def ucBookCreate (repo : BookRepo) (req : BookCreateRequest) :
    Except UCErr BookSchema :=
  match repo.create req with
  | .error e => .error e
  | .ok bookID =>
    match repo.read bookID with
    | .error e => .error e
    | .ok bookFound => .ok bookFound

/-- Method `BookUseCase.List`: forwards to the repository. -/
def ucBookList (repo : BookRepo) (f : BookFilter) :
    Except UCErr (List BookSchema) :=
  repo.list f

/-- Method `BookUseCase.Read`: forwards to the repository. -/
def ucBookRead (repo : BookRepo) (bookID : Nat) : Except UCErr BookSchema :=
  repo.read bookID

/-- Method `BookUseCase.Update`: repository Update, then on success repository
Read with the ID of the request; the read result is what is returned. -/
def ucBookUpdate (repo : BookRepo) (req : BookUpdateRequest) :
    Except UCErr BookSchema :=
  match repo.update req with
  | .error e => .error e
  | .ok _ => repo.read req.id

/-- Method `BookUseCase.Delete`: forwards to the repository. -/
def ucBookDelete (repo : BookRepo) (bookID : Nat) : Except UCErr Unit :=
  repo.delete bookID

/-- Method `BookUseCase.Search`: forwards to the repository. -/
def ucBookSearch (repo : BookRepo) (req : BookFilter) :
    Except UCErr (List BookSchema) :=
  repo.search req

/-- What a handler produced: the HTTP status written, the response payload
if any, and whether the use case was invoked during the request. -/
structure HandlerOutcome (α : Type) where
  status : Nat
  body : Option α
  usecaseInvoked : Bool
deriving Repr, DecidableEq

/-- Book `Handler.Create`: JSON decode (400 on failure), field validation
(400 on errors), then the use case; `sql.ErrNoRows` maps to 400,
other errors to 500, success to 201 with the created resource. -/
def bookHandlerCreate (decoded : Except Unit BookCreateRequest)
    (validation : BookCreateRequest → Option (List String))
    (uc : BookCreateRequest → Except UCErr BookSchema) :
    HandlerOutcome BookSchema :=
  match decoded with
  | .error _ => ⟨400, none, false⟩
  | .ok req =>
    match validation req with
    | some _ => ⟨400, none, false⟩
    | none =>
      match uc req with
      | .error .noRows => ⟨400, none, true⟩
      | .error (.other _) => ⟨500, none, true⟩
      | .ok bk => ⟨201, some bk, true⟩

/-- Author `Handler.Create`: same decode/validate/status-code shape as the
book Create handler. -/
def authorHandlerCreate (decoded : Except Unit AuthorCreateRequest)
    (validation : AuthorCreateRequest → Option (List String))
    (uc : AuthorCreateRequest → Except UCErr AuthorSchema) :
    HandlerOutcome AuthorSchema :=
  match decoded with
  | .error _ => ⟨400, none, false⟩
  | .ok req =>
    match validation req with
    | some _ => ⟨400, none, false⟩
    | none =>
      match uc req with
      | .error .noRows => ⟨400, none, true⟩
      | .error (.other _) => ⟨500, none, true⟩
      | .ok a => ⟨201, some a, true⟩

/-- Book `Handler.Get`: 400 when the `bookID` path parameter fails to
parse, otherwise one use-case Read whose error is mapped flatly —
`sql.ErrNoRows` to 400, anything else to 500 — and 200 with the book on
success. -/
def bookHandlerGet (param : Except Unit Nat)
    (uc : Nat → Except UCErr BookSchema) : HandlerOutcome BookSchema :=
  match param with
  | .error _ => ⟨400, none, false⟩
  | .ok bookID =>
    match uc bookID with
    | .error .noRows => ⟨400, none, true⟩
    | .error (.other _) => ⟨500, none, true⟩
    | .ok b => ⟨200, some b, true⟩

/-- The response of the author List handler: status plus the
`respond.Standard` payload (data and Size/Total metadata). -/
structure ListHandlerOutcome where
  status : Nat
  data : List AuthorSchema
  metaSize : Nat
  metaTotal : Nat
deriving Repr, DecidableEq

/-- Modelled from the spec: the author use-case List — absent from src —
is a near-identity forwarding layer between handler and repository, so it
returns exactly `repository.List`. -/
def ucAuthorList (st : Store) (f : AuthorFilter) : ListResult :=
  repoList st f

/-- Author `Handler.List` (success path): the use-case result is returned
with 200, `Meta.Size` the length of the returned data and `Meta.Total` the
separately counted total. -/
def authorHandlerList (st : Store) (f : AuthorFilter) : ListHandlerOutcome :=
  let r := ucAuthorList st f
  { status := 200, data := r.data, metaSize := r.data.length,
    metaTotal := r.total }

/-! Helper lemmas about query evaluation. -/

theorem mem_insertLE {le : AuthorRow → AuthorRow → Bool} {a x : AuthorRow}
    {l : List AuthorRow} (h : x ∈ insertLE le a l) : x = a ∨ x ∈ l := by
  induction l with
  | nil =>
    simp only [insertLE, List.mem_singleton] at h
    exact Or.inl h
  | cons b t ih =>
    by_cases hle : le a b
    · simpa [insertLE, hle] using h
    · simp only [insertLE, hle, if_neg, Bool.false_eq_true, not_false_eq_true,
        List.mem_cons] at h
      rcases h with h | h
      · exact Or.inr (by simp [h])
      · rcases ih h with h' | h'
        · exact Or.inl h'
        · exact Or.inr (List.mem_cons_of_mem _ h')

theorem mem_sortLE {le : AuthorRow → AuthorRow → Bool} {x : AuthorRow}
    {l : List AuthorRow} (h : x ∈ sortLE le l) : x ∈ l := by
  induction l with
  | nil => simp only [sortLE] at h; exact h
  | cons b t ih =>
    rcases mem_insertLE h with h' | h'
    · simp [h']
    · exact List.mem_cons_of_mem _ (ih h')

/-- Every row a query returns is a store row satisfying all the
predicates of the query. -/
theorem mem_runAuthorQuery {st : Store} {q : AuthorQuery} {x : AuthorRow}
    (h : x ∈ runAuthorQuery st q) :
    x ∈ st.authors ∧ ∀ p ∈ q.preds, evalAuthorPred p x = true := by
  unfold runAuthorQuery at h
  have hx : x ∈ sortLE (rowLE q.orders)
      (st.authors.filter (fun a => q.preds.all (fun p => evalAuthorPred p a))) := by
    rcases hq : q.limit with _ | n <;> rw [hq] at h
    · exact List.mem_of_mem_drop h
    · exact List.mem_of_mem_drop (List.mem_of_mem_take h)
  have hf := mem_sortLE hx
  have := List.mem_filter.mp hf
  exact ⟨this.1, List.all_eq_true.mp this.2⟩

/-- Every schema in a List result comes from a returned row (same id, same
deleted_at). -/
theorem mem_repoList_data {st : Store} {f : AuthorFilter} {s : AuthorSchema}
    (h : s ∈ (repoList st f).data) :
    ∃ a ∈ runAuthorQuery st (listDataQuery f),
      s.id = a.id ∧ s.deletedAt = a.deletedAt := by
  simp only [repoList, runAuthorQueryGen, List.map_map, List.mem_map] at h
  rcases h with ⟨a, ha, rfl⟩
  exact ⟨a, ha, rfl, rfl⟩

/-! C6 -/

/-- C6: the book use-case List, Read, Delete and Search forward to the
repository unchanged: same arguments, identical results. -/
theorem C6_bookUseCase_forwards (repo : BookRepo) (f : BookFilter) (bookID : Nat) :
    ucBookList repo f = repo.list f ∧
    ucBookRead repo bookID = repo.read bookID ∧
    ucBookDelete repo bookID = repo.delete bookID ∧
    ucBookSearch repo f = repo.search f :=
  ⟨rfl, rfl, rfl, rfl⟩

/-! C5 -/

/-- C5: the book Get handler is a flat single-pass error mapping: 400 when
the bookID parameter fails to parse, 400 when the use-case Read fails with
sql.ErrNoRows, 500 on any other use-case error, and 200 with the book
resource on success. -/
theorem C5_bookGet_flat_mapping (uc : Nat → Except UCErr BookSchema) :
    (∀ e : Unit, bookHandlerGet (Except.error e) uc = ⟨400, none, false⟩) ∧
    (∀ bookID, uc bookID = Except.error UCErr.noRows →
      bookHandlerGet (Except.ok bookID) uc = ⟨400, none, true⟩) ∧
    (∀ bookID msg, uc bookID = Except.error (UCErr.other msg) →
      bookHandlerGet (Except.ok bookID) uc = ⟨500, none, true⟩) ∧
    (∀ bookID b, uc bookID = Except.ok b →
      bookHandlerGet (Except.ok bookID) uc = ⟨200, some b, true⟩) := by
  refine ⟨fun e => rfl, ?_, ?_, ?_⟩
  · intro bookID h; simp [bookHandlerGet, h]
  · intro bookID msg h; simp [bookHandlerGet, h]
  · intro bookID b h; simp [bookHandlerGet, h]

/-- C5 witness: the mapping evaluated on concrete use-case results. -/
theorem C5_bookGet_flat_mapping_witness :
    bookHandlerGet (Except.ok 1) (fun _ => Except.error UCErr.noRows) =
      ⟨400, none, true⟩ ∧
    bookHandlerGet (Except.ok 2) (fun _ => Except.error (UCErr.other "boom")) =
      ⟨500, none, true⟩ ∧
    bookHandlerGet (Except.ok 3)
      (fun _ => Except.ok ⟨3, "t", 0, "", "d", none, none⟩) =
      ⟨200, some ⟨3, "t", 0, "", "d", none, none⟩, true⟩ :=
  ⟨(C5_bookGet_flat_mapping _).2.1 1 rfl,
   (C5_bookGet_flat_mapping _).2.2.1 2 "boom" rfl,
   (C5_bookGet_flat_mapping _).2.2.2 3 _ rfl⟩

/-! C4 -/

/-- C4: for both the book and the author Create handler, a failed JSON
decode or a validation error yields status 400 with the use case never
invoked, and the use case runs exactly when decode and validation both
succeed. -/
theorem C4_create_validation_gate
    (bval : BookCreateRequest → Option (List String))
    (buc : BookCreateRequest → Except UCErr BookSchema)
    (aval : AuthorCreateRequest → Option (List String))
    (auc : AuthorCreateRequest → Except UCErr AuthorSchema) :
    (∀ e : Unit, bookHandlerCreate (Except.error e) bval buc = ⟨400, none, false⟩) ∧
    (∀ req errs, bval req = some errs →
      bookHandlerCreate (Except.ok req) bval buc = ⟨400, none, false⟩) ∧
    (∀ decoded, (bookHandlerCreate decoded bval buc).usecaseInvoked = true ↔
      ∃ req, decoded = Except.ok req ∧ bval req = none) ∧
    (∀ e : Unit, authorHandlerCreate (Except.error e) aval auc = ⟨400, none, false⟩) ∧
    (∀ req errs, aval req = some errs →
      authorHandlerCreate (Except.ok req) aval auc = ⟨400, none, false⟩) ∧
    (∀ decoded, (authorHandlerCreate decoded aval auc).usecaseInvoked = true ↔
      ∃ req, decoded = Except.ok req ∧ aval req = none) := by
  refine ⟨fun e => rfl, ?_, ?_, fun e => rfl, ?_, ?_⟩
  · intro req errs h; simp [bookHandlerCreate, h]
  · intro decoded
    cases decoded with
    | error e => simp [bookHandlerCreate]
    | ok req =>
      cases hv : bval req with
      | none =>
        cases hu : buc req with
        | error e => cases e <;> simp [bookHandlerCreate, hv, hu]
        | ok b => simp [bookHandlerCreate, hv, hu]
      | some errs => simp [bookHandlerCreate, hv]
  · intro req errs h; simp [authorHandlerCreate, h]
  · intro decoded
    cases decoded with
    | error e => simp [authorHandlerCreate]
    | ok req =>
      cases hv : aval req with
      | none =>
        cases hu : auc req with
        | error e => cases e <;> simp [authorHandlerCreate, hv, hu]
        | ok a => simp [authorHandlerCreate, hv, hu]
      | some errs => simp [authorHandlerCreate, hv]

/-- C4 witness: the gate evaluated on concrete decode/validation results
for both handlers. -/
theorem C4_create_validation_gate_witness :
    bookHandlerCreate (Except.ok ⟨"t", "2020", "u", "d"⟩)
      (fun _ => some ["title required"]) (fun _ => Except.error UCErr.noRows) =
      ⟨400, none, false⟩ ∧
    bookHandlerCreate (Except.error ())
      (fun _ => some ["title required"]) (fun _ => Except.error UCErr.noRows) =
      ⟨400, none, false⟩ ∧
    authorHandlerCreate (Except.ok ⟨"f", "m", "l", []⟩)
      (fun _ => some ["first name required"]) (fun _ => Except.error UCErr.noRows) =
      ⟨400, none, false⟩ :=
  ⟨(C4_create_validation_gate (fun _ => some ["title required"])
     (fun _ => Except.error UCErr.noRows) (fun _ => some ["first name required"])
     (fun _ => Except.error UCErr.noRows)).2.1 ⟨"t", "2020", "u", "d"⟩
     ["title required"] rfl,
   (C4_create_validation_gate (fun _ => some ["title required"])
     (fun _ => Except.error UCErr.noRows) (fun _ => some ["first name required"])
     (fun _ => Except.error UCErr.noRows)).1 (),
   (C4_create_validation_gate (fun _ => some ["title required"])
     (fun _ => Except.error UCErr.noRows) (fun _ => some ["first name required"])
     (fun _ => Except.error UCErr.noRows)).2.2.2.2.1 ⟨"f", "m", "l", []⟩
     ["first name required"] rfl⟩

/-! C10 -/

/-- C10: a successful author repository Update always returns an empty
Books list — the book edge of the update result is never loaded before the
mapping — while the books and links of the store are untouched. -/
theorem C10_update_books_empty (st st' : Store) (req : AuthorUpdateRequest)
    (resp : AuthorSchema) (h : repoUpdate st req = .ok (st', resp)) :
    resp.books = [] ∧ st'.books = st.books ∧ st'.links = st.links := by
  unfold repoUpdate entUpdateAuthor at h
  cases hf : st.authors.find? (fun a => a.id == req.id) with
  | none => rw [hf] at h; exact absurd h (by simp)
  | some a =>
    rw [hf] at h
    simp only [Except.ok.injEq, Prod.mk.injEq] at h
    obtain ⟨hst, hresp⟩ := h
    refine ⟨?_, ?_, ?_⟩
    · rw [← hresp]; simp [mapGenAuthor]
    · rw [← hst]
    · rw [← hst]

/-! Concrete fixtures used by witnesses. -/

def wBook1 : BookRow := ⟨10, "b1", 0, "", "d1", some 1, some 1, none⟩

def wBook2 : BookRow := ⟨11, "b2", 0, "", "d2", some 1, some 1, none⟩

/-- An author row (id 1) that the fixture store links to two books. -/
def wAuthor : AuthorRow := ⟨1, "Alice", "", "Smith", some 1, some 1, none⟩

/-- A store with one author linked to two books. -/
def wStore : Store := ⟨[wAuthor], [wBook1, wBook2], [⟨10, 1⟩, ⟨11, 1⟩], 2, 12⟩

/-- C10 witness: updating the fixture author — who has two linked books —
succeeds, leaves the links in place, and still returns an empty Books
list. -/
theorem C10_update_books_empty_witness :
    repoUpdate wStore ⟨1, "nf", "nm", "nl"⟩ =
      .ok ({ wStore with authors := [⟨1, "nf", "nm", "nl", some 1, some 1, none⟩] },
           ⟨1, "nf", "nm", "nl", some 1, some 1, none, []⟩) ∧
    (loadBooks wStore 1).length = 2 ∧
    (⟨1, "nf", "nm", "nl", some 1, some 1, none, []⟩ : AuthorSchema).books = [] :=
  ⟨rfl, by decide,
   (C10_update_books_empty wStore _ ⟨1, "nf", "nm", "nl"⟩ _ rfl).1⟩

/-! C2 -/

/-- C2: author repository Delete is a soft delete: on success some row had
the given ID, the author table keeps all its rows (book rows and links are
untouched, the length is unchanged), and row-by-row the only change is that
rows with that ID get `deleted_at` set to the current time while every
other row — and every other field — is unchanged. -/
theorem C2_author_soft_delete (now : Nat) (st st' : Store) (authorID : Nat)
    (h : repoDelete now st authorID = .ok st') :
    (∃ a ∈ st.authors, a.id = authorID) ∧
    st'.books = st.books ∧ st'.links = st.links ∧
    st'.authors.length = st.authors.length ∧
    (∀ i : Nat, st'.authors[i]? = st.authors[i]?.map
      (fun a => if a.id = authorID then { a with deletedAt := some now } else a)) := by
  unfold repoDelete entUpdateAuthor at h
  cases hf : st.authors.find? (fun a => a.id == authorID) with
  | none => rw [hf] at h; exact absurd h (by simp)
  | some a =>
    rw [hf] at h
    simp only [Except.ok.injEq] at h
    subst h
    refine ⟨⟨a, List.mem_of_find?_eq_some hf, by simpa using List.find?_some hf⟩,
      rfl, rfl, by simp, ?_⟩
    intro i
    simp [List.getElem?_map]

/-- C2 witness: deleting the fixture author at time 5 only stamps
`deleted_at`. -/
theorem C2_author_soft_delete_witness :
    repoDelete 5 wStore 1 =
      .ok { wStore with authors := [⟨1, "Alice", "", "Smith", some 1, some 1, some 5⟩] } ∧
    ({ wStore with authors := [⟨1, "Alice", "", "Smith", some 1, some 1, some 5⟩] } : Store).books
      = wStore.books ∧
    ({ wStore with authors := [⟨1, "Alice", "", "Smith", some 1, some 1, some 5⟩] } : Store).authors.length
      = wStore.authors.length :=
  ⟨rfl,
   (C2_author_soft_delete 5 wStore _ 1 rfl).2.1,
   (C2_author_soft_delete 5 wStore _ 1 rfl).2.2.2.1⟩

/-! C8 -/

/-- Spec-side translation of one sort entry: the four known columns map to
an order option whose direction is ascending exactly for "ASC"; any other
key maps to nothing. -/
def orderOfEntry (p : String × String) : Option OrderOption :=
  if p.1 = "first_name" ∨ p.1 = "last_name" ∨ p.1 = "created_at" ∨ p.1 = "updated_at" then
    some ⟨p.1, if p.2 = "ASC" then Dir.asc else Dir.desc⟩
  else none

theorem authorOrderStep_eq (acc : List OrderOption) (p : String × String) :
    authorOrderStep acc p = acc ++ (orderOfEntry p).toList := by
  obtain ⟨c, o⟩ := p
  unfold authorOrderStep orderOfEntry
  split
  · rename_i heq
    have hc : c = "first_name" := heq
    subst hc; simp
  · rename_i heq
    have hc : c = "last_name" := heq
    subst hc; simp
  · rename_i heq
    have hc : c = "created_at" := heq
    subst hc; simp
  · rename_i heq
    have hc : c = "updated_at" := heq
    subst hc; simp
  · rename_i h1 h2 h3 h4
    rw [if_neg]
    · simp
    · simp only [not_or]
      exact ⟨fun hc => h1 hc, fun hc => h2 hc, fun hc => h3 hc, fun hc => h4 hc⟩

/-- Lemma: `authorOrder` is the entry-wise translation of the sort map. -/
theorem authorOrder_eq_filterMap (sorts : List (String × String)) :
    authorOrder sorts = sorts.filterMap orderOfEntry := by
  suffices h : ∀ acc, sorts.foldl authorOrderStep acc = acc ++ sorts.filterMap orderOfEntry by
    simpa using h []
  induction sorts with
  | nil => intro acc; simp
  | cons p t ih =>
    intro acc
    rw [List.foldl_cons, authorOrderStep_eq, List.filterMap_cons]
    cases ho : orderOfEntry p with
    | none => simp [ih]
    | some v => simp [ih]

/-- C8: the List data query is the dynamic predicate/sort translation of
the filter: a name predicate is present exactly when the corresponding
filter field is non-empty, the limit and offset of the filter are applied, and
the order options are the entry-wise translation of the sort map —
ascending for "ASC", descending otherwise, nothing for keys outside the
four sortable columns. -/
theorem C8_list_query_build (f : AuthorFilter) :
    (∀ p, p ∈ (listDataQuery f).preds ↔
      (p = AuthorPred.deletedAtIsNil ∨
       (f.firstName ≠ "" ∧ p = AuthorPred.firstNameContainsFold f.firstName) ∨
       (f.middleName ≠ "" ∧ p = AuthorPred.middleNameContainsFold f.middleName) ∨
       (f.lastName ≠ "" ∧ p = AuthorPred.lastNameContainsFold f.lastName))) ∧
    (listDataQuery f).limit = some f.limit ∧
    (listDataQuery f).offset = f.offset ∧
    (listDataQuery f).orders = f.sort.filterMap orderOfEntry := by
  refine ⟨?_, rfl, rfl, authorOrder_eq_filterMap f.sort⟩
  intro p
  simp only [listDataQuery, namePredicates, List.mem_append, List.mem_singleton]
  by_cases h1 : f.firstName = "" <;> by_cases h2 : f.middleName = "" <;>
    by_cases h3 : f.lastName = "" <;>
    simp [h1, h2, h3] <;> tauto

/-! C7 -/

/-- C7 counterexample: the declared edges admit an instance in which one
book is linked to two authors, so the schema does not declare that each
book belongs to exactly one author. -/
theorem C7_counterexample :
    ¬ (∀ (links : List Link) (bookIds authorIds : List Nat),
        schemaSatisfied links bookIds authorIds = true →
        ∀ b ∈ bookIds, countLinksOfBook links b = 1) := by
  intro h
  have := h [⟨1, 10⟩, ⟨1, 11⟩] [1] [10, 11] (by decide) 1 (by decide)
  exact absurd this (by decide)

/-! C9 -/

/-- A store with two live authors of which only the first matches the
example name filter. -/
def exStore : Store :=
  ⟨[⟨1, "a", "", "x", none, none, none⟩, ⟨2, "b", "", "y", none, none, none⟩],
   [], [], 3, 1⟩

/-- A filter on first name "a" with default paging. -/
def exFilter : AuthorFilter := ⟨"a", "", "", 30, 0, []⟩

/-- C9: in the author List response, Total is the count of all non-deleted
authors and does not depend on the filter at all, Size is the length of the
returned (filtered, paginated) data, and on a concrete store the Total (2)
exceeds the number of authors matching the name filter (1). -/
theorem C9_list_total_ignores_filters (st : Store) (f g : AuthorFilter) :
    (authorHandlerList st f).metaTotal =
      (st.authors.filter (fun a => a.deletedAt.isNone)).length ∧
    (authorHandlerList st f).metaSize = (authorHandlerList st f).data.length ∧
    (authorHandlerList st f).metaTotal = (authorHandlerList st g).metaTotal ∧
    ((authorHandlerList exStore exFilter).metaTotal = 2 ∧
     (authorHandlerList exStore exFilter).metaSize = 1 ∧
     (exStore.authors.filter (fun a =>
       a.deletedAt.isNone && containsFold a.firstName exFilter.firstName)).length = 1) := by
  refine ⟨?_, rfl, rfl, by decide, by decide, by decide⟩
  simp only [authorHandlerList, ucAuthorList, repoList, countAuthorQuery, listCountQuery]
  congr 1
  apply List.filter_congr
  intro a _
  simp [evalAuthorPred]

/-! C3 -/

/-- C3: soft-deleted authors are invisible to reads: everything List
returns has nil deleted_at, everything Read returns has nil deleted_at,
and after a successful Delete the author is not readable and absent from
List results. -/
theorem C3_soft_deleted_invisible (st : Store) (f : AuthorFilter) (id : Nat)
    (now : Nat) (st' : Store) (hdel : repoDelete now st id = .ok st') :
    (∀ s ∈ (repoList st f).data, s.deletedAt = none) ∧
    (∀ s, repoRead st id = .ok s → s.deletedAt = none) ∧
    repoRead st' id = .error .notFound ∧
    (∀ s ∈ (repoList st' f).data, s.id ≠ id) := by
  have hList : ∀ (st0 : Store), ∀ s ∈ (repoList st0 f).data, s.deletedAt = none := by
    intro st0 s hs
    obtain ⟨a, ha, _, hde⟩ := mem_repoList_data hs
    have hnil := (mem_runAuthorQuery ha).2 AuthorPred.deletedAtIsNil
      (by simp [listDataQuery])
    rw [hde]
    simpa [evalAuthorPred, Option.isNone_iff_eq_none] using hnil
  -- shape of the deleted row after a successful Delete
  unfold repoDelete entUpdateAuthor at hdel
  have hP : ∀ x ∈ st'.authors, x.id = id → x.deletedAt = some now := by
    cases hf : st.authors.find? (fun a => a.id == id) with
    | none => rw [hf] at hdel; exact absurd hdel (by simp)
    | some a =>
      rw [hf] at hdel
      simp only [Except.ok.injEq] at hdel
      subst hdel
      intro x hx hxid
      obtain ⟨b, _, rfl⟩ := List.mem_map.mp hx
      by_cases hb : (b.id == id) = true
      · simp [hb]
      · rw [if_neg hb] at hxid ⊢
        exact absurd (by simpa using hxid) (by simpa using hb)
  have hfilter : st'.authors.filter
      (fun a => (readQuery id).preds.all (fun p => evalAuthorPred p a)) = [] := by
    rw [List.filter_eq_nil_iff]
    intro a ha
    simp only [readQuery, List.all_cons, List.all_nil, evalAuthorPred,
      Bool.and_true, Bool.and_eq_true, beq_iff_eq]
    rintro ⟨haid, hnone⟩
    rw [hP a ha haid] at hnone
    simp at hnone
  have hrun : runAuthorQuery st' (readQuery id) = [] := by
    unfold runAuthorQuery
    rw [hfilter]
    simp [sortLE, readQuery]
  refine ⟨hList st, ?_, ?_, ?_⟩
  · intro s hs
    unfold repoRead at hs
    cases hh : (runAuthorQueryGen st (readQuery id)).head? with
    | none => rw [hh] at hs; exact absurd hs (by simp)
    | some g =>
      rw [hh] at hs
      simp only [Except.ok.injEq] at hs
      subst hs
      have hg : g ∈ runAuthorQueryGen st (readQuery id) :=
        List.mem_of_mem_head? (Option.mem_def.mpr hh)
      obtain ⟨a, ha, rfl⟩ := List.mem_map.mp hg
      have hnil := (mem_runAuthorQuery ha).2 AuthorPred.deletedAtIsNil
        (by simp [readQuery])
      simpa [mapGenAuthor, evalAuthorPred, Option.isNone_iff_eq_none] using hnil
  · unfold repoRead
    simp [runAuthorQueryGen, hrun]
  · intro s hs
    obtain ⟨a, ha, hsid, _⟩ := mem_repoList_data hs
    have hnil := (mem_runAuthorQuery ha).2 AuthorPred.deletedAtIsNil
      (by simp [listDataQuery])
    have hmem := (mem_runAuthorQuery ha).1
    intro hcontra
    simp only [evalAuthorPred] at hnil
    rw [hP a hmem (hsid.symm.trans hcontra)] at hnil
    simp at hnil

/-- C3 witness: on the fixture store, deleting author 1 at time 5 makes it
unreadable. -/
theorem C3_soft_deleted_invisible_witness :
    repoDelete 5 wStore 1 =
      .ok { wStore with authors := [⟨1, "Alice", "", "Smith", some 1, some 1, some 5⟩] } ∧
    repoRead { wStore with authors := [⟨1, "Alice", "", "Smith", some 1, some 1, some 5⟩] } 1
      = .error .notFound :=
  ⟨rfl,
   (C3_soft_deleted_invisible wStore ⟨"", "", "", 30, 0, []⟩ 1 5 _ rfl).2.2.1⟩

/-! C1 -/

theorem entCreateBooksBulk_authors (parse : String → Nat) (now : Nat)
    (st : Store) (bs : List BookCreateRequest) :
    (entCreateBooksBulk parse now st bs).1.authors = st.authors ∧
    (entCreateBooksBulk parse now st bs).1.nextAuthorId = st.nextAuthorId := by
  induction bs generalizing st with
  | nil => exact ⟨rfl, rfl⟩
  | cons b t ih =>
    simp only [entCreateBooksBulk]
    exact ih _

theorem find_append_fresh (l : List AuthorRow) (r : AuthorRow) (i : Nat)
    (hl : ∀ a ∈ l, a.id ≠ i) (hr : r.id = i) :
    (l ++ [r]).find? (fun a => a.id == i) = some r := by
  induction l with
  | nil => simp [List.find?, hr]
  | cons b t ih =>
    have hb : (b.id == i) = false := by
      simpa using hl b (by simp)
    simp only [List.cons_append, List.find?_cons, hb]
    exact ih (fun a ha => hl a (List.mem_cons_of_mem _ ha))

/-- On a store whose author ids are below the id sequence, the author
repository Create succeeds, re-fetches the created author by the new id —
finding the database row, whose timestamps were set database-side — and
builds its response from that re-fetched row. -/
theorem repoCreate_ok (parse : String → Nat) (now : Nat) (st : Store)
    (req : AuthorCreateRequest)
    (hfresh : ∀ a ∈ st.authors, a.id ≠ st.nextAuthorId) :
    ∃ st2 resp,
      repoCreate parse now st (some req) = .ok (st2, resp) ∧
      entAuthorGet st2 resp.id = .ok
        ⟨st.nextAuthorId, req.firstName, req.middleName, req.lastName,
         some now, some now, none⟩ ∧
      resp = ⟨st.nextAuthorId, req.firstName, req.middleName, req.lastName,
              some now, some now, none,
              (entCreateBooksBulk parse now st req.books).2.map bookToSchema⟩ := by
  obtain ⟨hAuth, hNext⟩ := entCreateBooksBulk_authors parse now st req.books
  have hfind : ((entCreateBooksBulk parse now st req.books).1.authors ++
      [(⟨(entCreateBooksBulk parse now st req.books).1.nextAuthorId, req.firstName,
        req.middleName, req.lastName, some now, some now, none⟩ : AuthorRow)]).find?
      (fun a => a.id == (entCreateBooksBulk parse now st req.books).1.nextAuthorId) =
      some (⟨(entCreateBooksBulk parse now st req.books).1.nextAuthorId, req.firstName,
        req.middleName, req.lastName, some now, some now, none⟩ : AuthorRow) := by
    apply find_append_fresh
    · rw [hAuth, hNext]; exact hfresh
    · rfl
  have hget : entAuthorGet
      (entCreateAuthor now (entCreateBooksBulk parse now st req.books).1
        req.firstName req.middleName req.lastName
        ((entCreateBooksBulk parse now st req.books).2.map (fun b => b.id))).1
      (entCreateAuthor now (entCreateBooksBulk parse now st req.books).1
        req.firstName req.middleName req.lastName
        ((entCreateBooksBulk parse now st req.books).2.map (fun b => b.id))).2.id
      = .ok (⟨(entCreateBooksBulk parse now st req.books).1.nextAuthorId, req.firstName,
        req.middleName, req.lastName, some now, some now, none⟩ : AuthorRow) := by
    simp only [entCreateAuthor, entAuthorGet]
    rw [hfind]
  refine ⟨(entCreateAuthor now (entCreateBooksBulk parse now st req.books).1
      req.firstName req.middleName req.lastName
      ((entCreateBooksBulk parse now st req.books).2.map (fun b => b.id))).1,
    ⟨st.nextAuthorId, req.firstName, req.middleName, req.lastName,
      some now, some now, none,
      (entCreateBooksBulk parse now st req.books).2.map bookToSchema⟩,
    ?_, ?_, rfl⟩
  · simp only [repoCreate]
    rw [hget, hNext]
  · rw [← hNext]
    simpa [entCreateAuthor] using hget

/-- C1: read-after-write on every Create/Update: the book use-case Create
returns exactly what repository Read yields at the ID repository Create
returned; the book use-case Update returns exactly what repository Read
yields at the request ID; and the author repository Create re-fetches the
author by the created ID and builds the response from that read — its
timestamps are the database-side ones, not anything from the request
payload. -/
theorem C1_read_after_write
    (repo : BookRepo) (creq : BookCreateRequest) (ureq : BookUpdateRequest)
    (cid : Nat) (cb ub : BookSchema)
    (hc : repo.create creq = .ok cid) (hcr : repo.read cid = .ok cb)
    (hu : repo.update ureq = .ok ()) (hur : repo.read ureq.id = .ok ub)
    (parse : String → Nat) (now : Nat) (st : Store) (req : AuthorCreateRequest)
    (hfresh : ∀ a ∈ st.authors, a.id ≠ st.nextAuthorId) :
    ucBookCreate repo creq = .ok cb ∧
    ucBookUpdate repo ureq = .ok ub ∧
    (∃ st2 resp fetched,
      repoCreate parse now st (some req) = .ok (st2, resp) ∧
      entAuthorGet st2 resp.id = .ok fetched ∧
      resp.id = fetched.id ∧ resp.firstName = fetched.firstName ∧
      resp.middleName = fetched.middleName ∧ resp.lastName = fetched.lastName ∧
      resp.createdAt = fetched.createdAt ∧ resp.updatedAt = fetched.updatedAt ∧
      resp.deletedAt = fetched.deletedAt ∧ resp.createdAt = some now) := by
  refine ⟨by simp [ucBookCreate, hc, hcr], by simp [ucBookUpdate, hu, hur], ?_⟩
  obtain ⟨st2, resp, hrc, hget2, hresp⟩ := repoCreate_ok parse now st req hfresh
  subst hresp
  exact ⟨st2, _, _, hrc, hget2, rfl, rfl, rfl, rfl, rfl, rfl, rfl, rfl⟩

/-- A constant-result book repository used as a witness input. -/
def wBookSchema : BookSchema := ⟨7, "wt", 3, "", "wd", none, none⟩

def wBookRepo : BookRepo :=
  { create := fun _ => .ok 7,
    read := fun _ => .ok wBookSchema,
    update := fun _ => .ok (),
    delete := fun _ => .ok (),
    list := fun _ => .ok [],
    search := fun _ => .ok [] }

/-- C1 witness: read-after-write evaluated on a concrete repository. -/
theorem C1_read_after_write_witness :
    ucBookCreate wBookRepo ⟨"t", "2020", "", "d"⟩ = .ok wBookSchema ∧
    ucBookUpdate wBookRepo ⟨7, "t", "2020", "", "d"⟩ = .ok wBookSchema :=
  ⟨(C1_read_after_write wBookRepo ⟨"t", "2020", "", "d"⟩ ⟨7, "t", "2020", "", "d"⟩
      7 wBookSchema wBookSchema rfl rfl rfl rfl
      (fun _ => 0) 9 ⟨[], [], [], 1, 1⟩ ⟨"f", "m", "l", []⟩ (by simp)).1,
   (C1_read_after_write wBookRepo ⟨"t", "2020", "", "d"⟩ ⟨7, "t", "2020", "", "d"⟩
      7 wBookSchema wBookSchema rfl rfl rfl rfl
      (fun _ => 0) 9 ⟨[], [], [], 1, 1⟩ ⟨"f", "m", "l", []⟩ (by simp)).2.1⟩

/-- C7 (amended): the schema edge between Book and Author is declared
many-to-many — `edge.To("authors")` on Book with back-reference
`edge.From("books").Ref("authors")` on Author, neither Unique — so an
author may have many books and, equally, a book may have many authors. -/
theorem C7_edge_many_to_many :
    bookAuthorsEdge.unique = false ∧
    authorBooksEdge.unique = false ∧
    authorBooksEdge.ref = some bookAuthorsEdge.name ∧
    bookEdgesDef = [bookAuthorsEdge] ∧ authorEdgesDef = [authorBooksEdge] ∧
    (schemaSatisfied [⟨1, 10⟩, ⟨2, 10⟩] [1, 2] [10] = true ∧
      countLinksOfAuthor [⟨1, 10⟩, ⟨2, 10⟩] 10 = 2) ∧
    (schemaSatisfied [⟨1, 10⟩, ⟨1, 11⟩] [1] [10, 11] = true ∧
      countLinksOfBook [⟨1, 10⟩, ⟨1, 11⟩] 1 = 2) := by
  refine ⟨rfl, rfl, rfl, rfl, rfl, ⟨by decide, by decide⟩, ⟨by decide, by decide⟩⟩

end Go8
